import Mathlib

/-!
Verification of the ComfyUI front-end job adapter (gradio_wan.py).

The development shallowly embeds the non-GUI core of the program:
templates are JSON trees, the field patcher update_node, the seed
randomizer, the upload / submit / poll phases of run_comfyui_workflow
(modelled as explicit state passing over an environment that supplies
the HTTP responses, the random draws and the clock), and the template
loader load_workflows.  Python exceptions are modelled with Except;
the polling loop, which the source runs without any bound, is indexed
by fuel.  JSON numbers are modelled as integers only: no claim touches
float-valued template fields.
-/

set_option autoImplicit false

namespace GradioWan

/-- JSON values, as produced by json.load.  Objects keep insertion
order, matching Python dict semantics after a json.loads/json.dumps
round-trip (which also guarantees the value is a tree, so functional
updates coincide with the in-place mutation done by the source). -/
inductive J where
  | str : String → J
  | int : Int → J
  | bool : Bool → J
  | null : J
  | arr : List J → J
  | obj : List (String × J) → J

/-- Association-list lookup: first binding wins, as in a Python dict
(whose keys are unique). -/
def alookup {α : Type} : List (String × α) → String → Option α
  | [], _ => none
  | (k, v) :: rest, key => if k = key then some v else alookup rest key

/-- Dict assignment m[k] = v: replaces the binding in place if the key
is present, appends it otherwise (Python dicts keep insertion order). -/
def aset {α : Type} : List (String × α) → String → α → List (String × α)
  | [], k, v => [(k, v)]
  | (k', v') :: rest, k, v =>
      if k' = k then (k, v) :: rest else (k', v') :: aset rest k v

/-- Key-presence test k in m for a dict. -/
def hasKey {α : Type} (m : List (String × α)) (k : String) : Bool :=
  (alookup m k).isSome

/-- Contiguous-sublist test on character lists. -/
def listInfix : List Char → List Char → Bool
  | pat, [] => pat.isEmpty
  | pat, c :: rest => pat.isPrefixOf (c :: rest) || listInfix pat rest

/-- Substring test pat in s for Python strings (the empty pattern is in
every string). -/
def strContains (s pat : String) : Bool :=
  listInfix pat.data s.data

/-- Suffix test, Python str.endswith with a single suffix. -/
def strEndsWith (s suffix : String) : Bool :=
  suffix.data.isSuffixOf s.data

/-- Python str.startswith. -/
def strStartsWith (s pre : String) : Bool :=
  pre.data.isPrefixOf s.data

mutual
/-- The deep copy json.loads(json.dumps(x)) taken at line 35 of the
source before any patching: on the JSON value tree it reproduces the
value; in the source its point is to sever all sharing with the
registry entry, so the per-job graph is an isolated copy. -/
def deep_copy : J → J
  | .str s => .str s
  | .int n => .int n
  | .bool b => .bool b
  | .null => .null
  | .arr l => .arr (deep_copyArr l)
  | .obj l => .obj (deep_copyObj l)
def deep_copyArr : List J → List J
  | [] => []
  | j :: rest => deep_copy j :: deep_copyArr rest
def deep_copyObj : List (String × J) → List (String × J)
  | [] => []
  | (k, v) :: rest => (k, deep_copy v) :: deep_copyObj rest
end

mutual
def deep_copy_eq : ∀ j : J, deep_copy j = j
  | .str _ => rfl
  | .int _ => rfl
  | .bool _ => rfl
  | .null => rfl
  | .arr l => by rw [deep_copy, deep_copyArr_eq l]
  | .obj l => by rw [deep_copy, deep_copyObj_eq l]
def deep_copyArr_eq : ∀ l : List J, deep_copyArr l = l
  | [] => rfl
  | j :: rest => by rw [deep_copyArr, deep_copy_eq j, deep_copyArr_eq rest]
def deep_copyObj_eq : ∀ l : List (String × J), deep_copyObj l = l
  | [] => rfl
  | (k, v) :: rest => by rw [deep_copyObj, deep_copy_eq v, deep_copyObj_eq rest]
end

/-- A field key in an inputs_map entry: the source dispatches on
isinstance(key, int), so a key is either a name or a position. -/
inductive FieldKey where
  | str : String → FieldKey
  | int : Int → FieldKey

/-- Python equality between a str/int field key and a JSON element, as
used by the membership tests key in some_list.  A str key equals only an
equal str; an int key equals an equal int, or a bool (True == 1,
False == 0).  Keys never equal lists, dicts or None. -/
def keyMatches : FieldKey → J → Bool
  | .str s, .str t => s = t
  | .int i, .int n => i = n
  | .int i, .bool b => (if b then (1 : Int) else 0) = i
  | _, _ => false

/-- Python list item assignment l[k] = v: a non-negative index must be
below the length, a negative index counts from the end, anything else
raises IndexError. -/
def pyListSet (l : List J) (k : Int) (v : J) : Except String (List J) :=
  if 0 ≤ k then
    if k < (l.length : Int) then .ok (l.set k.toNat v)
    else .error "IndexError: list assignment index out of range"
  else
    if -(l.length : Int) ≤ k then .ok (l.set (l.length - (-k).toNat) v)
    else .error "IndexError: list assignment index out of range"

/-- The three explicitly handled loader class types (line 71). -/
def loaderTypes : List String := ["LoadVideo", "LoadImage", "VHS_LoadVideo"]

def isLoader (ct : String) : Bool := loaderTypes.contains ct

/-- ctype = node.get("class_type", "") (line 68).  A non-string value is
collapsed to "": the source only ever compares ctype against non-empty
string literals, which a non-string value never equals. -/
def getCtype (node : List (String × J)) : String :=
  match alookup node "class_type" with
  | some (J.str s) => s
  | _ => ""

/-- Lines 77-80: inside the loader branch, probe node["inputs"] for the
key itself and then for the fallback aliases video / image / file.
The container may be any JSON value; non-dict containers follow Python
membership / item-assignment semantics (assignment into a list needs an
int index, strings and scalars raise TypeError). -/
def loaderInputsPatch (inp : J) (key : FieldKey) (val : J) : Except String J :=
  match inp with
  | J.obj m =>
      match key with
      | .str s =>
          if hasKey m s then .ok (J.obj (aset m s val))
          else if hasKey m "video" then .ok (J.obj (aset m "video" val))
          else if hasKey m "image" then .ok (J.obj (aset m "image" val))
          else if hasKey m "file" then .ok (J.obj (aset m "file" val))
          else .ok (J.obj m)
      | .int _ =>
          if hasKey m "video" then .ok (J.obj (aset m "video" val))
          else if hasKey m "image" then .ok (J.obj (aset m "image" val))
          else if hasKey m "file" then .ok (J.obj (aset m "file" val))
          else .ok (J.obj m)
  | J.arr l =>
      if l.any (keyMatches key) then
        match key with
        | .int i => (pyListSet l i val).map J.arr
        | .str _ => .error "TypeError: list indices must be integers, not str"
      else if l.any (keyMatches (.str "video")) then
        .error "TypeError: list indices must be integers, not str"
      else if l.any (keyMatches (.str "image")) then
        .error "TypeError: list indices must be integers, not str"
      else if l.any (keyMatches (.str "file")) then
        .error "TypeError: list indices must be integers, not str"
      else .ok (J.arr l)
  | J.str s =>
      match key with
      | .str k =>
          if strContains s k then
            .error "TypeError: str object does not support item assignment"
          else if strContains s "video" then
            .error "TypeError: str object does not support item assignment"
          else if strContains s "image" then
            .error "TypeError: str object does not support item assignment"
          else if strContains s "file" then
            .error "TypeError: str object does not support item assignment"
          else .ok (J.str s)
      | .int _ => .error "TypeError: in requires string as left operand"
  | _ => .error "TypeError: argument is not iterable"

/-- Lines 88-98 (branch 3, graph-format widget values): dispatch on the
shape of widgets_values.  Returns some new value when the source
assigns, none when it leaves the node alone. -/
def widgetsPatch (ctype : String) (wvJ : J) (key : FieldKey) (val : J) :
    Except String (Option J) :=
  match wvJ with
  | J.arr wv =>
      match key with
      | .int i =>
          if i < (wv.length : Int) then (pyListSet wv i val).map (fun l => some (J.arr l))
          else .ok none
      | .str s =>
          if s = "text" then
            let tgt : Nat := if ctype = "WanVideoTextEncodeCached" then 2 else 0
            if tgt < wv.length then .ok (some (J.arr (wv.set tgt val))) else .ok none
          else .ok none
  | J.obj m =>
      match key with
      | .str s =>
          if hasKey m s then .ok (some (J.obj (aset m s val)))
          else if s = "video" then .ok (some (J.obj (aset m "video" val)))
          else .ok none
      | .int _ => .ok none
  | _ => .ok none

/-- Branches 2 and 3 of update_node (lines 82-98), reached whenever the
loader early-return at line 75 did not fire. -/
def updateRest (ctype : String) (node : List (String × J)) (key : FieldKey) (val : J) :
    Except String (List (String × J)) :=
  let node1 :=
    match alookup node "inputs", key with
    | some (J.obj inp), .str s =>
        if hasKey inp s then aset node "inputs" (J.obj (aset inp s val)) else node
    | _, _ => node
  match alookup node1 "widgets_values" with
  | some wvJ =>
      match widgetsPatch ctype wvJ key val with
      | .error e => .error e
      | .ok (some wv) => .ok (aset node1 "widgets_values" wv)
      | .ok none => .ok node1
  | none => .ok node1

/-- update_node applied to one node record (a dict): lines 68-98.
A loader node with a nonempty widget list is patched at position 0 and
the function returns at line 75; otherwise the loader inputs probing
and then the generic branches run in sequence on the same node. -/
def update_node_obj (node : List (String × J)) (key : FieldKey) (val : J) :
    Except String (List (String × J)) :=
  let ctype := getCtype node
  if isLoader ctype then
    match alookup node "widgets_values" with
    | some (J.arr (_ :: ws)) =>
        .ok (aset node "widgets_values" (J.arr (val :: ws)))
    | _ =>
        match alookup node "inputs" with
        | some inp =>
            match loaderInputsPatch inp key val with
            | .error e => .error e
            | .ok inp2 => updateRest ctype (aset node "inputs" inp2) key val
        | none => updateRest ctype node key val
  else
    updateRest ctype node key val

/-- update_node (lines 65-98) on the whole per-job graph.  A missing
node id is silently ignored (line 66); a node that is not a dict makes
node.get raise AttributeError; a non-dict graph follows Python
membership semantics for nid not in workflow. -/
def update_node (wfJ : J) (nid : String) (key : FieldKey) (val : J) : Except String J :=
  match wfJ with
  | J.obj wf =>
      match alookup wf nid with
      | none => .ok (J.obj wf)
      | some (J.obj node) =>
          match update_node_obj node key val with
          | .error e => .error e
          | .ok node2 => .ok (J.obj (aset wf nid (J.obj node2)))
      | some _ => .error "AttributeError: object has no attribute get"
  | J.arr l =>
      if l.any (keyMatches (.str nid)) then
        .error "TypeError: list indices must be integers, not str"
      else .ok (J.arr l)
  | J.str s =>
      if strContains s nid then .error "TypeError: string indices must be integers"
      else .ok (J.str s)
  | _ => .error "TypeError: argument is not iterable"

/-- The inner loop of lines 113-115 on one named-input dict: the input
named seed, then the input named noise_seed, each overwritten (when
present) with the next random draw.  rand gives the successive values
of random.randint(1, 1000000000000) and c the index of the next draw. -/
def seedPass (inp : List (String × J)) (rand : Nat → Nat) (c : Nat) :
    List (String × J) × Nat :=
  let p1 : List (String × J) × Nat :=
    if hasKey inp "seed" then (aset inp "seed" (J.int (rand c)), c + 1) else (inp, c)
  if hasKey p1.1 "noise_seed" then
    (aset p1.1 "noise_seed" (J.int (rand p1.2)), p1.2 + 1)
  else p1

/-- Lines 111-115 for a single node: the seed pass runs on nodes whose
inputs key holds a dict; other nodes are untouched (or raise, following
Python membership semantics on the node value). -/
def randomizeNode (nodeJ : J) (rand : Nat → Nat) (c : Nat) : Except String (J × Nat) :=
  match nodeJ with
  | J.obj node =>
      match alookup node "inputs" with
      | some (J.obj inp) =>
          let p2 := seedPass inp rand c
          .ok (J.obj (aset node "inputs" (J.obj p2.1)), p2.2)
      | _ => .ok (J.obj node, c)
  | J.arr l =>
      if l.any (keyMatches (.str "inputs")) then
        .error "TypeError: list indices must be integers, not str"
      else .ok (nodeJ, c)
  | J.str s =>
      if strContains s "inputs" then .error "TypeError: string indices must be integers"
      else .ok (nodeJ, c)
  | _ => .error "TypeError: argument is not iterable"

/-- Lines 111-115: walk the graph in insertion order and randomize the
seeds of every node. -/
def randomizeSeeds (entries : List (String × J)) (rand : Nat → Nat) (c : Nat) :
    Except String (List (String × J) × Nat) :=
  match entries with
  | [] => .ok ([], c)
  | (nid, nodeJ) :: rest =>
      match randomizeNode nodeJ rand c with
      | .error e => .error e
      | .ok p =>
          match randomizeSeeds rest rand p.2 with
          | .error e => .error e
          | .ok q => .ok ((nid, p.1) :: q.1, q.2)

/-- Lines 111-115 on the whole graph value: workflow.items() raises
AttributeError when the graph is not a dict. -/
def randomizeSeedsJ (wfJ : J) (rand : Nat → Nat) (c : Nat) : Except String (J × Nat) :=
  match wfJ with
  | J.obj entries =>
      match randomizeSeeds entries rand c with
      | .error e => .error e
      | .ok p => .ok (J.obj p.1, p.2)
  | _ => .error "AttributeError: object has no attribute items"

/-- One file entry of a completed job, as the source reads it at lines
163 and 177-179: the interface contract (GET /history) gives each item
a filename, a subfolder and a type bucket. -/
structure OutItem where
  filename : String
  subfolder : String
  ftype : String
deriving DecidableEq

/-- The per-node output record: a dict whose keys may include videos,
gifs, files and images, each holding a list of file entries. -/
abbrev Content := List (String × List OutItem)

/-- All outputs of a completed job, keyed by producing node id. -/
abbrev Outputs := List (String × Content)

/-- is_video (lines 155-156): case-insensitive check for a known video
extension. -/
def is_video (fname : String) : Bool :=
  [".mp4", ".mov", ".webm", ".mkv", ".gif"].any
    (fun e => e.data.isSuffixOf (fname.data.map Char.toLower))

/-- The fixed key scan order of line 160. -/
def outputKeyOrder : List String := ["videos", "gifs", "files", "images"]

/-- The inner item loop (lines 162-168): stop at the first video,
remember the first non-video as backup while no backup is known. -/
def scanItems : List OutItem → Option OutItem → Option OutItem × Option OutItem
  | [], best => (none, best)
  | item :: rest, best =>
      if is_video item.filename then (some item, best)
      else
        match best with
        | some b => scanItems rest (some b)
        | none => scanItems rest (some item)

/-- The key loop of lines 160-169: scan the lists under each present
key in order, breaking out as soon as a video was found. -/
def scanKeys : List String → Content → Option OutItem → Option OutItem × Option OutItem
  | [], _, best => (none, best)
  | k :: ks, content, best =>
      match alookup content k with
      | none => scanKeys ks content best
      | some items =>
          match scanItems items best with
          | (some t, b) => (some t, b)
          | (none, b) => scanKeys ks content b

/-- The node loop of lines 159-170. -/
def scanNodes : Outputs → Option OutItem → Option OutItem × Option OutItem
  | [], best => (none, best)
  | (_, content) :: rest, best =>
      match scanKeys outputKeyOrder content best with
      | (some t, b) => (some t, b)
      | (none, b) => scanNodes rest b

/-- Lines 150-174: the selected artifact of a completed job, the found
video if any and the backup non-video entry otherwise. -/
def selectArtifact (outputs : Outputs) : Option OutItem :=
  match scanNodes outputs none with
  | (some t, _) => some t
  | (none, b) => b

/-- The file entries under a list of keys, in scan order. -/
def keysEntries (ks : List String) (content : Content) : List OutItem :=
  ks.foldr (fun k acc => (alookup content k).getD [] ++ acc) []

/-- The file entries of one node in the encounter order of the scan. -/
def nodeEntries (content : Content) : List OutItem :=
  keysEntries outputKeyOrder content

/-- All file entries of a job in the encounter order of the scan:
nodes in response order, keys in the fixed order, items in list order. -/
def encounterEntries (outputs : Outputs) : List OutItem :=
  outputs.foldr (fun p acc => nodeEntries p.2 ++ acc) []

/-- One (artifact-or-none, status-message) pair of the progress
sequence yielded to the caller. -/
abbrev Yield := Option String × String

/-- The network calls the runner can make, recorded in order. -/
inductive Call where
  | upload
  | prompt
  | history
  | view
deriving DecidableEq

/-- Outcome of one upload attempt (lines 45-60), as decided by the
outside world: the open() call can raise before any HTTP traffic, the
POST or the body parse can raise, the engine can answer non-200, or a
200 body yields body.get("name") (None when the key is absent). -/
inductive UploadResult where
  | openFail (msg : String)
  | httpExn (msg : String)
  | httpError (text : String)
  | ok (name : J)

/-- Outcome of the POST /prompt submission (lines 120-127). -/
inductive PromptResult where
  | exn (msg : String)
  | httpError (text : String)
  | ok (pid : J)

/-- Outcome of one GET /history poll (lines 140-144): an exception, a
non-200 status (the body is then never read), or a parsed body mapping
prompt ids to their outputs (job_data.get("outputs", {}) folds a
missing outputs key into the empty mapping). -/
inductive HistResult where
  | exn (msg : String)
  | notOk
  | ok (body : List (String × Outputs))

/-- Outcome of one GET /view download plus the temp-file write
(lines 181-187): either some step raised, or the bytes were written. -/
inductive ViewResult where
  | exn (msg : String)
  | ok

/-- The environment of one job execution: the correlation id and temp
directory, the successive outcomes of the external interactions, the
successive random draws, and the elapsed-seconds clock read at each
poll tick. -/
structure Env where
  clientId : String
  tempDir : String
  upload : Nat → UploadResult
  prompt : PromptResult
  history : Nat → HistResult
  view : Nat → ViewResult
  rand : Nat → Nat
  elapsed : Nat → Nat

/-- prompt_id in history_data (line 145): the parsed body is a dict
with string keys, so only a string id can be present. -/
def pidIn (pid : J) (body : List (String × Outputs)) : Bool :=
  match pid with
  | J.str s => hasKey body s
  | _ => false

/-- history_data[prompt_id]["outputs"] for a present id. -/
def outputsFor (pid : J) (body : List (String × Outputs)) : Outputs :=
  match pid with
  | J.str s => (alookup body s).getD []
  | _ => []

/-- Whether a job has terminated, or the fuel bound of the model was
exhausted while the source would still be polling. -/
inductive Outcome where
  | done
  | fuelOut
deriving DecidableEq

/-- Trace, network calls and outcome of a phase of the runner. -/
structure PhaseOut where
  trace : List Yield
  calls : List Call
  outcome : Outcome
deriving DecidableEq

/-- The polling loop of lines 134-195, fuel ticks at a time, starting
at tick number tick.  Each tick sleeps, yields the elapsed-time update,
then polls: any poll failure, non-200 answer or absent id silently
continues; a present id yields the downloading message, selects the
artifact, and either reports no output (terminal), downloads and yields
the local path (terminal), or swallows the download failure and keeps
polling. -/
def pollPhase (env : Env) (pid : J) : Nat → Nat → PhaseOut
  | 0, _ => ⟨[], [], .fuelOut⟩
  | fuel + 1, tick =>
      let progress : Yield := (none, "Processing... (" ++ toString (env.elapsed tick) ++ "s)")
      match env.history tick with
      | .ok body =>
          if pidIn pid body then
            let finished : Yield := (none, "Job finished! Downloading...")
            match selectArtifact (outputsFor pid body) with
            | some item =>
                match env.view tick with
                | .ok =>
                    let path :=
                      env.tempDir ++ "/comfy_" ++ env.clientId ++ "_" ++ item.filename
                    ⟨[progress, finished, (some path, "Success: Video Generated.")],
                      [.history, .view], .done⟩
                | .exn _ =>
                    let r := pollPhase env pid fuel (tick + 1)
                    ⟨progress :: finished :: r.trace, .history :: .view :: r.calls, r.outcome⟩
            | none =>
                ⟨[progress, finished, (none, "Finished, but no output found.")],
                  [.history], .done⟩
          else
            let r := pollPhase env pid fuel (tick + 1)
            ⟨progress :: r.trace, .history :: r.calls, r.outcome⟩
      | _ =>
          let r := pollPhase env pid fuel (tick + 1)
          ⟨progress :: r.trace, .history :: r.calls, r.outcome⟩

/-- files_map: node id to parameter-name-to-local-path, where a path
may be the Python None of an empty widget. -/
abbrev FilesMap := List (String × List (String × Option String))

/-- inputs_map: node id to field-key-to-value assignments. -/
abbrev InputsMap := List (String × List (FieldKey × J))

/-- uploaded_filenames: node id to parameter-name-to-remote-name. -/
abbrev UploadedMap := List (String × List (String × J))

/-- uploaded_filenames[node_id][param_name] = filename (lines 52-53). -/
def insertName (m : UploadedMap) (nid param : String) (name : J) : UploadedMap :=
  match alookup m nid with
  | none => m ++ [(nid, [(param, name)])]
  | some inner => aset m nid (aset inner param name)

/-- Running state of the upload loop: yields so far, calls so far, the
index of the next upload attempt, and the names collected so far. -/
structure UploadState where
  trace : List Yield
  calls : List Call
  k : Nat
  names : UploadedMap

/-- One iteration of the upload loop (lines 41-60).  A None path yields
the missing-file error and stops; open() raising stops before any HTTP
call; a POST exception or non-200 answer stops with the corresponding
message; on 200 the returned name is recorded. -/
def uploadOne (env : Env) (st : UploadState) (nid param : String) (fp : Option String) :
    Except UploadState UploadState :=
  match fp with
  | none =>
      .error ⟨st.trace ++ [(none, "Error: Missing file for " ++ param)], st.calls, st.k, st.names⟩
  | some _ =>
      match env.upload st.k with
      | .openFail m =>
          .error ⟨st.trace ++ [(none, "Upload error: " ++ m)], st.calls, st.k + 1, st.names⟩
      | .httpExn m =>
          .error ⟨st.trace ++ [(none, "Upload error: " ++ m)], st.calls ++ [.upload],
            st.k + 1, st.names⟩
      | .httpError t =>
          .error ⟨st.trace ++ [(none, "Upload failed: " ++ t)], st.calls ++ [.upload],
            st.k + 1, st.names⟩
      | .ok name =>
          .ok ⟨st.trace, st.calls ++ [.upload], st.k + 1, insertName st.names nid param name⟩

/-- The inner parameter loop of line 41. -/
def uploadParams (env : Env) (nid : String) :
    List (String × Option String) → UploadState → Except UploadState UploadState
  | [], st => .ok st
  | (param, fp) :: rest, st =>
      match uploadOne env st nid param fp with
      | .error st2 => .error st2
      | .ok st2 => uploadParams env nid rest st2

/-- The outer node loop of line 40. -/
def uploadAllFrom (env : Env) : FilesMap → UploadState → Except UploadState UploadState
  | [], st => .ok st
  | (nid, params) :: rest, st =>
      match uploadParams env nid params st with
      | .error st2 => .error st2
      | .ok st2 => uploadAllFrom env rest st2

/-- The whole upload phase (lines 39-60), from the empty state. -/
def uploadAll (env : Env) (fm : FilesMap) : Except UploadState UploadState :=
  uploadAllFrom env fm ⟨[], [], 0, []⟩

/-- The number of files a files_map holds: the upload loop consumes one
upload-attempt index per file, in iteration order. -/
def numFiles : FilesMap → Nat
  | [] => 0
  | (_, params) :: rest => params.length + numFiles rest

/-- Whether an upload attempt failed at open(), before any HTTP call:
in the source this is what a local file path that is absent on disk
produces (FileNotFoundError at line 46). -/
def isOpenFail : UploadResult → Bool
  | .openFail _ => true
  | _ => false

/-- Lines 100-108: apply the caller inputs, then the uploaded
filenames, each through update_node. -/
def applyMaps (wfJ : J) (im : InputsMap) (names : UploadedMap) : Except String J :=
  match im.foldlM (fun w p => p.2.foldlM (fun w q => update_node w p.1 q.1 q.2) w) wfJ with
  | .error e => .error e
  | .ok wf2 =>
      names.foldlM (fun w p => p.2.foldlM (fun w q => update_node w p.1 (.str q.1) q.2) w) wf2

/-- The configuration phase (lines 62-115): field assignments, upload
substitutions, then seed randomization, all on the per-job copy. -/
def configure (wfJ : J) (im : InputsMap) (names : UploadedMap) (rand : Nat → Nat) :
    Except String J :=
  match applyMaps wfJ im names with
  | .error e => .error e
  | .ok wf2 =>
      match randomizeSeedsJ wf2 rand 0 with
      | .error e => .error e
      | .ok p => .ok p.1

/-- The template store: name to parsed template, the global WORKFLOWS. -/
abbrev Store := List (String × J)

/-- Trace, calls and outcome of run_comfyui_workflow (lines 20-198).
An unknown template name yields the not-found error before the try
block; the upload phase can stop the job; a configuration exception is
caught by the outer handler and yielded as Error: ...; a rejected or
failed submission stops before any polling; otherwise the polling loop
runs on the given fuel. -/
def runJobCore (store : Store) (name : String) (im : InputsMap) (fm : FilesMap)
    (env : Env) (fuel : Nat) : List Yield × List Call × Outcome :=
  match alookup store name with
  | none =>
      ([(none, "Error: Workflow \x27" ++ name ++ "\x27 not found. Check \x27workflows\x27 folder.")],
        [], .done)
  | some wfJ0 =>
      let wfJ := deep_copy wfJ0
      let pre : List Yield := [(none, "Uploading files...")]
      match uploadAll env fm with
      | .error st => (pre ++ st.trace, st.calls, .done)
      | .ok st =>
          let t1 := pre ++ st.trace ++ [(none, "Configuring workflow...")]
          match configure wfJ im st.names env.rand with
          | .error msg => (t1 ++ [(none, "Error: " ++ msg)], st.calls, .done)
          | .ok _ =>
              let t2 := t1 ++ [(none, "Sending job...")]
              match env.prompt with
              | .httpError text =>
                  (t2 ++ [(none, "Error submitting: " ++ text)], st.calls ++ [.prompt], .done)
              | .exn m =>
                  (t2 ++ [(none, "Connection error: " ++ m)], st.calls ++ [.prompt], .done)
              | .ok pid =>
                  let r := pollPhase env pid fuel 0
                  (t2 ++ r.trace, st.calls ++ [.prompt] ++ r.calls, r.outcome)

/-- Result of one job execution, together with the template store as
the runner leaves it: the store is only ever read (line 35 deep-copies
the entry), never written. -/
structure RunResult where
  trace : List Yield
  calls : List Call
  outcome : Outcome
  store : Store

/-- run_comfyui_workflow with the global store made explicit. -/
def runJob (store : Store) (name : String) (im : InputsMap) (fm : FilesMap)
    (env : Env) (fuel : Nat) : RunResult :=
  let r := runJobCore store name im fm env fuel
  ⟨r.1, r.2.1, r.2.2, store⟩

/-- os.path.splitext applied to a base filename, stem part: the suffix
after the last dot is stripped, unless every character before that dot
is itself a dot (a leading-dot name has no extension). -/
def lastDot : List Char → Option Nat
  | [] => none
  | c :: rest =>
      match lastDot rest with
      | some i => some (i + 1)
      | none => if c = '.' then some 0 else none

def splitext_stem (s : String) : String :=
  match lastDot s.data with
  | none => s
  | some i =>
      if (s.data.take i).all (fun c => c = '.') then s
      else String.mk (s.data.take i)

/-- load_workflows (lines 202-215) modelled on a directory listing: a
missing directory leaves the store empty (the global starts empty and
the function returns after the warning); otherwise every name ending in
.json is loaded under its stem, a file whose open or parse raises is
reported in the error list and skipped, and anything else is ignored. -/
def load_step (acc : Store × List String) (e : String × Option J) : Store × List String :=
  if strEndsWith e.1 ".json" then
    match e.2 with
    | some j => (aset acc.1 (splitext_stem e.1) j, acc.2)
    | none => (acc.1, acc.2 ++ [e.1])
  else acc

def load_loop : List (String × Option J) → Store × List String → Store × List String
  | [], acc => acc
  | e :: rest, acc => load_loop rest (load_step acc e)

def load_workflows (dirExists : Bool) (entries : List (String × Option J)) :
    Store × List String :=
  if dirExists then load_loop entries ([], []) else ([], [])

/-! Concrete instances used to exercise the definitions. -/

/-- The outputs of the first selection scenario of the spec: an images
node and a videos node. -/
def exOutputsA : Outputs :=
  [("12", [("images", [⟨"a.png", "", "output"⟩])]),
   ("30", [("videos", [⟨"b.mp4", "", "output"⟩])])]

/-- The same outputs with the node ids in the opposite response order. -/
def exOutputsArev : Outputs :=
  [("30", [("videos", [⟨"b.mp4", "", "output"⟩])]),
   ("12", [("images", [⟨"a.png", "", "output"⟩])])]

/-- The outputs of the fallback selection scenario: images only. -/
def exOutputsB : Outputs := [("12", [("images", [⟨"a.png", "", "output"⟩])])]

/-- A loader node carrying an empty positional value-list next to a
named-input map that contains the patched key. -/
def exLoaderEmptyWV : List (String × J) :=
  [("class_type", J.str "LoadImage"),
   ("widgets_values", J.arr []),
   ("inputs", J.obj [("path", J.str "old.png")])]

/-- A loader node with a nonempty positional value-list and a same-named
key in its named-input map. -/
def exLoaderFullWV : List (String × J) :=
  [("class_type", J.str "VHS_LoadVideo"),
   ("widgets_values", J.arr [J.str "old.mp4", J.int 30]),
   ("inputs", J.obj [("video", J.str "old.mp4")])]

/-- A one-node graph with a seed input. -/
def exSeedWF : J :=
  J.obj [("1", J.obj [("class_type", J.str "KSampler"),
                      ("inputs", J.obj [("seed", J.int 42), ("cfg", J.int 7)])])]

/-- A random sequence that keeps drawing the inclusive upper endpoint of
random.randint(1, 1000000000000). -/
def randTop : Nat → Nat := fun _ => 1000000000000

/-- A store holding one empty-graph template. -/
def exStore : Store := [("t", J.obj [])]

/-- An environment whose engine completes the job at every tick with a
video output and whose downloads always fail. -/
def envDownFail : Env :=
  ⟨"cid", "/tmp",
   fun _ => UploadResult.ok (J.str "up.png"),
   PromptResult.ok (J.str "pid"),
   fun _ => HistResult.ok [("pid", [("9", [("videos", [⟨"a.mp4", "", "output"⟩])])])],
   fun _ => ViewResult.exn "boom",
   fun _ => 7,
   fun i => i⟩

/-- An environment for a fully successful run. -/
def envHappy : Env :=
  ⟨"cid", "/tmp",
   fun _ => UploadResult.ok (J.str "up.png"),
   PromptResult.ok (J.str "pid"),
   fun _ => HistResult.ok [("pid", [("9", [("videos", [⟨"a.mp4", "", "output"⟩])])])],
   fun _ => ViewResult.ok,
   fun _ => 7,
   fun i => i⟩

/-- An environment whose engine rejects the submission with HTTP 500. -/
def envReject : Env :=
  ⟨"cid", "/tmp",
   fun _ => UploadResult.ok (J.str "up.png"),
   PromptResult.httpError "Internal Server Error",
   fun _ => HistResult.ok [],
   fun _ => ViewResult.ok,
   fun _ => 7,
   fun i => i⟩

/-- An environment whose engine never lists the job in its history. -/
def envNeverDone : Env :=
  ⟨"cid", "/tmp",
   fun _ => UploadResult.ok (J.str "up.png"),
   PromptResult.ok (J.str "pid"),
   fun _ => HistResult.ok [],
   fun _ => ViewResult.ok,
   fun _ => 7,
   fun i => i⟩

/-- A files_map whose single entry has no local path (Python None). -/
def exMissingFiles : FilesMap := [("12", [("image", none)])]

/-- A files_map whose single entry names a path that is absent on disk. -/
def exAbsentFiles : FilesMap := [("12", [("image", some "/missing.png")])]

/-- An environment whose open() raises on every upload attempt, as it
does when the local file path does not exist. -/
def envOpenFail : Env :=
  ⟨"cid", "/tmp",
   fun _ => UploadResult.openFail "No such file or directory: /missing.png",
   PromptResult.ok (J.str "pid"),
   fun _ => HistResult.ok [],
   fun _ => ViewResult.ok,
   fun _ => 7,
   fun i => i⟩


/-- A constant admissible random sequence. -/
def randFive : Nat → Nat := fun _ => 5

/-- A directory listing with one unparsable file, one good template
and one non-json file. -/
def exEntries : List (String × Option J) :=
  [("bad.json", none), ("t2v.json", some (J.obj [])), ("readme.txt", some J.null)]

/-! Helper lemmas about the output scan. -/

theorem scanItems_fst (items : List OutItem) (best : Option OutItem) :
    (scanItems items best).1 = items.find? (fun it => is_video it.filename) := by
  induction items generalizing best with
  | nil => simp [scanItems]
  | cons item rest ih =>
      by_cases h : is_video item.filename
      · simp [scanItems, h, List.find?_cons_of_pos]
      · cases best with
        | some b => simp [scanItems, h, List.find?_cons_of_neg, ih]
        | none => simp [scanItems, h, List.find?_cons_of_neg, ih]


theorem scanItems_snd (items : List OutItem) (b : Option OutItem)
    (hnv : items.find? (fun it => is_video it.filename) = none) :
    (scanItems items b).2 = b.or items.head? := by
  induction items generalizing b with
  | nil => simp [scanItems]
  | cons item rest ih =>
      have h : is_video item.filename = false := by
        simpa using List.find?_eq_none.mp hnv item (List.mem_cons_self _ _)
      have hrest : rest.find? (fun it => is_video it.filename) = none := by
        rw [List.find?_eq_none] at hnv ⊢
        exact fun x hx => hnv x (List.mem_cons_of_mem _ hx)
      cases b with
      | some x => simp [scanItems, h, ih _ hrest]
      | none => simp [scanItems, h, ih _ hrest]

theorem keysEntries_cons (k : String) (ks : List String) (content : Content) :
    keysEntries (k :: ks) content = (alookup content k).getD [] ++ keysEntries ks content := rfl

theorem scanKeys_fst (ks : List String) (content : Content) (best : Option OutItem) :
    (scanKeys ks content best).1 =
      (keysEntries ks content).find? (fun it => is_video it.filename) := by
  induction ks generalizing best with
  | nil => simp [scanKeys, keysEntries]
  | cons k ks ih =>
      rw [keysEntries_cons, List.find?_append]
      cases hl : alookup content k with
      | none => simp [scanKeys, hl, ih]
      | some items =>
          have hfst := scanItems_fst items best
          cases hs : scanItems items best with
          | mk t b =>
              rw [hs] at hfst
              cases t with
              | some t0 => simp [scanKeys, hl, hs, ← hfst]
              | none => simp [scanKeys, hl, hs, ← hfst, ih]

theorem scanKeys_snd (ks : List String) (content : Content) (b : Option OutItem)
    (hnv : (keysEntries ks content).find? (fun it => is_video it.filename) = none) :
    (scanKeys ks content b).2 = b.or (keysEntries ks content).head? := by
  induction ks generalizing b with
  | nil => simp [scanKeys, keysEntries]
  | cons k ks ih =>
      rw [keysEntries_cons] at hnv ⊢
      rw [List.find?_append] at hnv
      have h1 : ((alookup content k).getD []).find? (fun it => is_video it.filename) = none := by
        cases hx : ((alookup content k).getD []).find? (fun it => is_video it.filename) with
        | none => rfl
        | some v => rw [hx] at hnv; exact absurd hnv (by simp)
      have h2 : (keysEntries ks content).find? (fun it => is_video it.filename) = none := by
        rw [h1] at hnv; simpa using hnv
      cases hl : alookup content k with
      | none => simpa [scanKeys, hl] using ih b h2
      | some items =>
          have hitems : items.find? (fun it => is_video it.filename) = none := by
            simpa [hl] using h1
          have hfst := scanItems_fst items b
          have hsnd := scanItems_snd items b hitems
          cases hs : scanItems items b with
          | mk t b2 =>
              rw [hs] at hfst hsnd
              have ht : t = none := by simpa [hitems] using hfst
              have hb2 : b2 = b.or items.head? := by simpa using hsnd
              subst ht
              rw [List.head?_append]
              simp only [scanKeys, hl, hs]
              rw [ih b2 h2, hb2, Option.or_assoc]
              simp [hl]

theorem encounterEntries_cons (nid : String) (content : Content) (rest : Outputs) :
    encounterEntries ((nid, content) :: rest) =
      nodeEntries content ++ encounterEntries rest := rfl

theorem scanNodes_fst (outputs : Outputs) (best : Option OutItem) :
    (scanNodes outputs best).1 =
      (encounterEntries outputs).find? (fun it => is_video it.filename) := by
  induction outputs generalizing best with
  | nil => simp [scanNodes, encounterEntries]
  | cons o rest ih =>
      obtain ⟨nid, content⟩ := o
      rw [encounterEntries_cons, List.find?_append]
      have hfst := scanKeys_fst outputKeyOrder content best
      cases hs : scanKeys outputKeyOrder content best with
      | mk t b =>
          rw [hs] at hfst
          cases t with
          | some t0 => simp [scanNodes, hs, nodeEntries, ← hfst]
          | none => simp [scanNodes, hs, nodeEntries, ← hfst, ih]

theorem scanNodes_snd (outputs : Outputs) (b : Option OutItem)
    (hnv : (encounterEntries outputs).find? (fun it => is_video it.filename) = none) :
    (scanNodes outputs b).2 = b.or (encounterEntries outputs).head? := by
  induction outputs generalizing b with
  | nil => simp [scanNodes, encounterEntries]
  | cons o rest ih =>
      obtain ⟨nid, content⟩ := o
      rw [encounterEntries_cons] at hnv ⊢
      rw [List.find?_append] at hnv
      have h1 : (nodeEntries content).find? (fun it => is_video it.filename) = none := by
        cases hx : (nodeEntries content).find? (fun it => is_video it.filename) with
        | none => rfl
        | some v => rw [hx] at hnv; exact absurd hnv (by simp)
      have h2 : (encounterEntries rest).find? (fun it => is_video it.filename) = none := by
        rw [h1] at hnv; simpa using hnv
      have hfst := scanKeys_fst outputKeyOrder content b
      have hsnd := scanKeys_snd outputKeyOrder content b (by rw [← nodeEntries]; exact h1)
      cases hs : scanKeys outputKeyOrder content b with
      | mk t b2 =>
          rw [hs] at hfst hsnd
          have ht : t = none := by
            have h1k : (keysEntries outputKeyOrder content).find?
                (fun it => is_video it.filename) = none := by rw [← nodeEntries]; exact h1
            simpa [h1k] using hfst
          have hb2 : b2 = b.or (nodeEntries content).head? := by
            simpa [nodeEntries] using hsnd
          subst ht
          rw [List.head?_append]
          simp only [scanNodes, hs]
          rw [ih b2 h2, hb2, Option.or_assoc]

/-- The full characterisation of the output-selection scan: the first
video in encounter order wins, else the first entry (all entries then
being non-video) is the backup. -/
theorem selectArtifact_spec (outputs : Outputs) :
    selectArtifact outputs =
      match (encounterEntries outputs).find? (fun it => is_video it.filename) with
      | some v => some v
      | none => (encounterEntries outputs).head? := by
  rw [selectArtifact]
  have hfst := scanNodes_fst outputs none
  cases hs : scanNodes outputs none with
  | mk t b =>
      rw [hs] at hfst
      cases t with
      | some t0 => rw [← hfst]
      | none =>
          rw [← hfst]
          have := scanNodes_snd outputs none hfst.symm
          rw [hs] at this
          simpa using this

/-! Claim theorems. -/

/-- C1: for every completed job, the output scan selects exactly one
artifact: the first video entry in encounter order over the node/key
scan when one exists, otherwise the first non-video entry encountered;
on the spec scenarios it picks b.mp4 (in either node order) and a.png. -/
theorem C1_output_selection :
    (∀ outputs : Outputs,
      (selectArtifact outputs =
        match (encounterEntries outputs).find? (fun it => is_video it.filename) with
        | some v => some v
        | none => (encounterEntries outputs).head?) ∧
      (encounterEntries outputs ≠ [] → (selectArtifact outputs).isSome = true)) ∧
    selectArtifact exOutputsA = some ⟨"b.mp4", "", "output"⟩ ∧
    selectArtifact exOutputsArev = some ⟨"b.mp4", "", "output"⟩ ∧
    selectArtifact exOutputsB = some ⟨"a.png", "", "output"⟩ := by
  refine ⟨fun outputs => ⟨selectArtifact_spec outputs, ?_⟩, rfl, rfl, rfl⟩
  intro hne
  rw [selectArtifact_spec outputs]
  cases hf : (encounterEntries outputs).find? (fun it => is_video it.filename) with
  | some v => simp
  | none =>
      cases he : encounterEntries outputs with
      | nil => exact absurd he hne
      | cons a l => simp

/-- Witness for C1: the general selection law applied to the concrete
two-node outputs, with the nonemptiness hypothesis discharged there. -/
theorem C1_output_selection_witness :
    encounterEntries exOutputsA ≠ [] ∧ (selectArtifact exOutputsA).isSome = true :=
  ⟨by decide, (C1_output_selection.1 exOutputsA).2 (by decide)⟩



/-! Helper lemmas about dict update. -/

theorem alookup_aset_self {α : Type} (m : List (String × α)) (k : String) (v : α) :
    alookup (aset m k v) k = some v := by
  induction m with
  | nil => simp [aset, alookup]
  | cons p rest ih =>
      obtain ⟨k0, v0⟩ := p
      by_cases h : k0 = k
      · simp [aset, alookup, h]
      · simp [aset, alookup, h, ih]

theorem alookup_aset_ne {α : Type} (m : List (String × α)) (k k' : String) (v : α)
    (h : k' ≠ k) :
    alookup (aset m k v) k' = alookup m k' := by
  induction m with
  | nil =>
      simp only [aset, alookup]
      rw [if_neg (fun hc => h hc.symm)]
  | cons p rest ih =>
      obtain ⟨k0, v0⟩ := p
      by_cases h0 : k0 = k
      · subst h0
        have hne : ¬(k0 = k') := fun hc => h (hc.symm)
        simp [aset, alookup, hne]
      · simp only [aset, if_neg h0, alookup]
        by_cases h1 : k0 = k'
        · simp [h1]
        · simp [h1, ih]

theorem hasKey_aset_ne {α : Type} (m : List (String × α)) (k k' : String) (v : α)
    (h : k' ≠ k) :
    hasKey (aset m k v) k' = hasKey m k' := by
  rw [hasKey, hasKey, alookup_aset_ne m k k' v h]

/-! Helper lemmas about the seed pass. -/

theorem seedPass_spec (inp : List (String × J)) (rand : Nat → Nat) (c : Nat)
    (k : String) (v : J) (hk : k = "seed" ∨ k = "noise_seed")
    (hv : alookup (seedPass inp rand c).1 k = some v) :
    ∃ i, v = J.int (rand i) := by
  have hsn : ("seed" : String) ≠ "noise_seed" := by decide
  have hns : ("noise_seed" : String) ≠ "seed" := by decide
  by_cases hs : hasKey inp "seed"
  · by_cases hn : hasKey (aset inp "seed" (J.int (rand c))) "noise_seed"
    · simp [seedPass, hs, hn] at hv
      cases hk with
      | inl hkk =>
          subst hkk
          rw [alookup_aset_ne _ _ _ _ hsn, alookup_aset_self] at hv
          exact ⟨c, by cases hv; rfl⟩
      | inr hkk =>
          subst hkk
          rw [alookup_aset_self] at hv
          exact ⟨c + 1, by cases hv; rfl⟩
    · simp [seedPass, hs, hn] at hv
      cases hk with
      | inl hkk =>
          subst hkk
          rw [alookup_aset_self] at hv
          exact ⟨c, by cases hv; rfl⟩
      | inr hkk =>
          subst hkk
          rw [hasKey] at hn
          rw [hv] at hn
          exact absurd (by simp) hn
  · by_cases hn : hasKey inp "noise_seed"
    · simp [seedPass, hs, hn] at hv
      cases hk with
      | inl hkk =>
          subst hkk
          rw [alookup_aset_ne _ _ _ _ hsn] at hv
          rw [hasKey] at hs
          rw [hv] at hs
          exact absurd (by simp) hs
      | inr hkk =>
          subst hkk
          rw [alookup_aset_self] at hv
          exact ⟨c, by cases hv; rfl⟩
    · simp [seedPass, hs, hn] at hv
      cases hk with
      | inl hkk =>
          subst hkk
          rw [hasKey] at hs
          rw [hv] at hs
          exact absurd (by simp) hs
      | inr hkk =>
          subst hkk
          rw [hasKey] at hn
          rw [hv] at hn
          exact absurd (by simp) hn

theorem randomizeNode_spec (nodeJ : J) (rand : Nat → Nat) (c : Nat) (node2 : J) (c2 : Nat)
    (h : randomizeNode nodeJ rand c = .ok (node2, c2)) :
    ∀ node inp k v, node2 = J.obj node →
      alookup node "inputs" = some (J.obj inp) →
      (k = "seed" ∨ k = "noise_seed") →
      alookup inp k = some v →
      ∃ i, v = J.int (rand i) := by
  intro node inp k v hnode hinp hk hv
  cases nodeJ with
  | obj node0 =>
      cases hi0 : alookup node0 "inputs" with
      | none =>
          rw [randomizeNode, hi0] at h
          cases h
          injection hnode with hx
          rw [← hx] at hinp
          rw [hinp] at hi0
          cases hi0
      | some inpJ =>
          cases inpJ with
          | obj inp0 =>
              rw [randomizeNode, hi0] at h
              simp only [Except.ok.injEq, Prod.mk.injEq] at h
              obtain ⟨h1, _⟩ := h
              rw [← h1] at hnode
              cases hnode
              rw [alookup_aset_self] at hinp
              cases hinp
              exact seedPass_spec inp0 rand c k v hk hv
          | str s =>
              rw [randomizeNode, hi0] at h
              cases h
              injection hnode with hx
              rw [← hx] at hinp
              rw [hinp] at hi0
              cases hi0
          | int n =>
              rw [randomizeNode, hi0] at h
              cases h
              injection hnode with hx
              rw [← hx] at hinp
              rw [hinp] at hi0
              cases hi0
          | bool b =>
              rw [randomizeNode, hi0] at h
              cases h
              injection hnode with hx
              rw [← hx] at hinp
              rw [hinp] at hi0
              cases hi0
          | null =>
              rw [randomizeNode, hi0] at h
              cases h
              injection hnode with hx
              rw [← hx] at hinp
              rw [hinp] at hi0
              cases hi0
          | arr l =>
              rw [randomizeNode, hi0] at h
              cases h
              injection hnode with hx
              rw [← hx] at hinp
              rw [hinp] at hi0
              cases hi0
  | str s =>
      rw [randomizeNode] at h
      by_cases hc : strContains s "inputs"
      · simp [hc] at h
      · rw [if_neg hc] at h
        cases h
        cases hnode
  | arr l =>
      rw [randomizeNode] at h
      by_cases hc : l.any (keyMatches (.str "inputs"))
      · simp [hc] at h
      · rw [if_neg hc] at h
        cases h
        cases hnode
  | int n => simp [randomizeNode] at h
  | bool b => simp [randomizeNode] at h
  | null => simp [randomizeNode] at h

theorem randomizeSeeds_spec (entries : List (String × J)) (rand : Nat → Nat) (c : Nat)
    (entries2 : List (String × J)) (c2 : Nat)
    (h : randomizeSeeds entries rand c = .ok (entries2, c2)) :
    ∀ nid node inp k v,
      alookup entries2 nid = some (J.obj node) →
      alookup node "inputs" = some (J.obj inp) →
      (k = "seed" ∨ k = "noise_seed") →
      alookup inp k = some v →
      ∃ i, v = J.int (rand i) := by
  induction entries generalizing c entries2 with
  | nil =>
      rw [randomizeSeeds] at h
      cases h
      intro nid node inp k v hn
      simp [alookup] at hn
  | cons e rest ih =>
      obtain ⟨nid0, nodeJ⟩ := e
      rw [randomizeSeeds] at h
      cases hn : randomizeNode nodeJ rand c with
      | error msg => simp [hn] at h
      | ok p =>
          simp only [hn] at h
          cases hr : randomizeSeeds rest rand p.2 with
          | error msg => simp [hr] at h
          | ok q =>
              simp only [hr] at h
              cases h
              intro nid node inp k v hnode hinp hk hv
              by_cases hid : nid0 = nid
              · rw [alookup, if_pos hid] at hnode
                injection hnode with hx
                exact randomizeNode_spec nodeJ rand c p.1 p.2 (by rw [hn]) node inp k v
                  hx hinp hk hv
              · rw [alookup, if_neg hid] at hnode
                exact ih p.2 q.1 (by rw [hr]) nid node inp k v hnode hinp hk hv


/-- C2 (amended): on a loader node carrying a nonempty positional
value-list, a field assignment with any field key overwrites position 0
of that list with the assigned value, regardless of whether a key of
the same name also exists in the named-input map (the update returns at
once without touching anything else); a node whose value-list is empty
instead falls through to the named-input handling. -/
theorem C2_loader_position_zero :
    ∀ (wf : List (String × J)) (nid : String) (node : List (String × J))
      (w : J) (ws : List J) (key : FieldKey) (val : J),
      alookup wf nid = some (J.obj node) →
      isLoader (getCtype node) = true →
      alookup node "widgets_values" = some (J.arr (w :: ws)) →
      update_node (J.obj wf) nid key val =
        .ok (J.obj (aset wf nid (J.obj (aset node "widgets_values" (J.arr (val :: ws)))))) := by
  intro wf nid node w ws key val hwf hl hwv
  simp only [update_node, hwf]
  simp [update_node_obj, hl, hwv]

/-- C2 counterexample: the claim quantifies over every positional
value-list, but on a loader node whose widgets_values list is empty the
source skips the position-0 write (len check at line 73) and patches
the named input instead: after the update the list is still empty, so
no position 0 holds the assigned value. -/
theorem C2_loader_position_zero_counterexample :
    update_node (J.obj [("5", J.obj exLoaderEmptyWV)]) "5" (FieldKey.str "path")
        (J.str "new.png") =
      .ok (J.obj [("5", J.obj
        [("class_type", J.str "LoadImage"),
         ("widgets_values", J.arr []),
         ("inputs", J.obj [("path", J.str "new.png")])])]) ∧
    ([] : List J).get? 0 = none :=
  ⟨rfl, rfl⟩

/-- Witness for C2: the amended law applied to a loader node with a
nonempty value-list and a same-named key in its named-input map. -/
theorem C2_loader_position_zero_witness :
    update_node (J.obj [("7", J.obj exLoaderFullWV)]) "7" (FieldKey.str "video")
        (J.str "new.mp4") =
      .ok (J.obj (aset [("7", J.obj exLoaderFullWV)] "7"
        (J.obj (aset exLoaderFullWV "widgets_values"
          (J.arr (J.str "new.mp4" :: [J.int 30])))))) :=
  C2_loader_position_zero [("7", J.obj exLoaderFullWV)] "7" exLoaderFullWV
    (J.str "old.mp4") [J.int 30] (FieldKey.str "video") (J.str "new.mp4") rfl rfl rfl

/-- C3 (amended): after the seed pass that closes the configuration
phase, every node input named seed or noise_seed holds one of the fresh
random draws, and under the random.randint(1, 10^12) contract (both
endpoints included) every such value v satisfies 1 ≤ v ≤ 10^12 ---
the upper endpoint is attainable, so the half-open range of the claim
is corrected to the closed range. -/
theorem C3_seed_randomization :
    ∀ (wfJ : J) (rand : Nat → Nat) (entries2 : List (String × J)) (c2 : Nat),
      (∀ i, 1 ≤ rand i ∧ rand i ≤ 1000000000000) →
      randomizeSeedsJ wfJ rand 0 = .ok (J.obj entries2, c2) →
      ∀ nid node inp k v,
        alookup entries2 nid = some (J.obj node) →
        alookup node "inputs" = some (J.obj inp) →
        (k = "seed" ∨ k = "noise_seed") →
        alookup inp k = some v →
        ∃ i, v = J.int (rand i) ∧ 1 ≤ rand i ∧ rand i ≤ 1000000000000 := by
  intro wfJ rand entries2 c2 hr h nid node inp k v h1 h2 h3 h4
  cases wfJ with
  | obj entries =>
      rw [randomizeSeedsJ] at h
      cases hs : randomizeSeeds entries rand 0 with
      | error e => simp [hs] at h
      | ok p =>
          simp only [hs] at h
          cases h
          obtain ⟨i, hi⟩ :=
            randomizeSeeds_spec entries rand 0 p.1 p.2 (by rw [hs]) nid node inp k v h1 h2 h3 h4
          exact ⟨i, hi, hr i⟩
  | str s => simp [randomizeSeedsJ] at h
  | arr l => simp [randomizeSeedsJ] at h
  | int n => simp [randomizeSeedsJ] at h
  | bool b => simp [randomizeSeedsJ] at h
  | null => simp [randomizeSeedsJ] at h

/-- C3 counterexample: drawing the inclusive upper endpoint 10^12 is an
admissible behaviour of random.randint(1, 1000000000000), and the seed
written into the node then equals 10^12, which the half-open range
[1, 10^12) of the claim excludes. -/
theorem C3_seed_randomization_counterexample :
    (1 ≤ randTop 0 ∧ randTop 0 ≤ 1000000000000) ∧
    randomizeSeedsJ exSeedWF randTop 0 =
      .ok (J.obj [("1", J.obj [("class_type", J.str "KSampler"),
        ("inputs", J.obj [("seed", J.int 1000000000000), ("cfg", J.int 7)])])], 1) ∧
    ¬((1000000000000 : Int) < 1000000000000) :=
  ⟨⟨by decide, by decide⟩, rfl, by decide⟩

/-- Witness for C3: the amended law applied to the one-seed graph under
a constant admissible random sequence. -/
theorem C3_seed_randomization_witness :
    ∃ i, (J.int 5 : J) = J.int (randFive i) ∧
      1 ≤ randFive i ∧ randFive i ≤ 1000000000000 :=
  C3_seed_randomization exSeedWF randFive
    [("1", J.obj [("class_type", J.str "KSampler"),
      ("inputs", J.obj [("seed", J.int 5), ("cfg", J.int 7)])])] 1
    (fun _ => ⟨(by decide : (1 : Nat) ≤ 5), (by decide : (5 : Nat) ≤ 1000000000000)⟩) rfl
    "1" [("class_type", J.str "KSampler"),
      ("inputs", J.obj [("seed", J.int 5), ("cfg", J.int 7)])]
    [("seed", J.int 5), ("cfg", J.int 7)] "seed" (J.int 5)
    rfl rfl (Or.inl rfl) rfl



/-! Helper lemmas about the template loader. -/

theorem hasKey_aset_self {α : Type} (m : List (String × α)) (k : String) (v : α) :
    hasKey (aset m k v) k = true := by
  rw [hasKey, alookup_aset_self]; rfl

theorem hasKey_aset_mono {α : Type} (m : List (String × α)) (k k' : String) (v : α)
    (h : hasKey m k' = true) : hasKey (aset m k v) k' = true := by
  by_cases he : k' = k
  · subst he; exact hasKey_aset_self m k' v
  · rw [hasKey_aset_ne m k k' v he]; exact h

theorem load_step_store_mono (acc : Store × List String) (e : String × Option J) (k : String)
    (h : hasKey acc.1 k = true) : hasKey (load_step acc e).1 k = true := by
  rw [load_step]
  by_cases hj : strEndsWith e.1 ".json"
  · rw [if_pos hj]
    cases hp : e.2 with
    | some j => exact hasKey_aset_mono _ _ _ _ h
    | none => exact h
  · rw [if_neg hj]; exact h

theorem load_step_err_mono (acc : Store × List String) (e : String × Option J) (f : String)
    (h : f ∈ acc.2) : f ∈ (load_step acc e).2 := by
  rw [load_step]
  by_cases hj : strEndsWith e.1 ".json"
  · rw [if_pos hj]
    cases hp : e.2 with
    | some j => exact h
    | none => exact List.mem_append_left _ h
  · rw [if_neg hj]; exact h

theorem load_loop_store_mono (entries : List (String × Option J)) (acc : Store × List String)
    (k : String) (h : hasKey acc.1 k = true) :
    hasKey (load_loop entries acc).1 k = true := by
  induction entries generalizing acc with
  | nil => exact h
  | cons e rest ih => exact ih _ (load_step_store_mono acc e k h)

theorem load_loop_err_mono (entries : List (String × Option J)) (acc : Store × List String)
    (f : String) (h : f ∈ acc.2) : f ∈ (load_loop entries acc).2 := by
  induction entries generalizing acc with
  | nil => exact h
  | cons e rest ih => exact ih _ (load_step_err_mono acc e f h)

theorem load_loop_adds (entries : List (String × Option J)) (acc : Store × List String)
    (f : String) (j : J) (hm : (f, some j) ∈ entries) (hj : strEndsWith f ".json" = true) :
    hasKey (load_loop entries acc).1 (splitext_stem f) = true := by
  induction entries generalizing acc with
  | nil => cases hm
  | cons e rest ih =>
      cases hm with
      | head =>
          rw [load_loop]
          refine load_loop_store_mono rest _ _ ?_
          rw [load_step, if_pos hj]
          exact hasKey_aset_self _ _ _
      | tail _ hmem => exact ih _ hmem

theorem load_loop_reports (entries : List (String × Option J)) (acc : Store × List String)
    (f : String) (hm : (f, none) ∈ entries) (hj : strEndsWith f ".json" = true) :
    f ∈ (load_loop entries acc).2 := by
  induction entries generalizing acc with
  | nil => cases hm
  | cons e rest ih =>
      cases hm with
      | head =>
          rw [load_loop]
          refine load_loop_err_mono rest _ _ ?_
          rw [load_step, if_pos hj]
          exact List.mem_append_right _ (List.mem_singleton.mpr rfl)
      | tail _ hmem => exact ih _ hmem

/-- C9: the template loader is total; a missing directory yields the
empty store; every parse failure among the .json files is reported and
skipped while every parsable .json file is still registered under its
stem, whatever else the directory holds. -/
theorem C9_loader_resilience :
    ∀ entries : List (String × Option J),
      load_workflows false entries = ([], []) ∧
      (∀ f j, (f, some j) ∈ entries → strEndsWith f ".json" = true →
        hasKey (load_workflows true entries).1 (splitext_stem f) = true) ∧
      (∀ f, (f, none) ∈ entries → strEndsWith f ".json" = true →
        f ∈ (load_workflows true entries).2) := by
  intro entries
  refine ⟨rfl, ?_, ?_⟩
  · intro f j hm hj
    rw [load_workflows, if_pos rfl]
    exact load_loop_adds entries ([], []) f j hm hj
  · intro f hm hj
    rw [load_workflows, if_pos rfl]
    exact load_loop_reports entries ([], []) f hm hj

/-- Witness for C9: the loader on a directory holding one unparsable
file, one good template and one unrelated file. -/
theorem C9_loader_resilience_witness :
    hasKey (load_workflows true exEntries).1 (splitext_stem "t2v.json") = true ∧
    "bad.json" ∈ (load_workflows true exEntries).2 :=
  ⟨(C9_loader_resilience exEntries).2.1 "t2v.json" (J.obj []) (by simp [exEntries]) rfl,
   (C9_loader_resilience exEntries).2.2 "bad.json" (by simp [exEntries]) rfl⟩



/-! Helper lemmas about the upload phase. -/

/-- An upload-phase terminal status: missing file, failed HTTP upload,
or an exception while opening or posting the file. -/
def isUploadErrMsg (m : String) : Bool :=
  strStartsWith m "Error: Missing file for " ||
  strStartsWith m "Upload failed: " ||
  strStartsWith m "Upload error: "

/-- Only upload calls appear in the list. -/
def onlyUploads (l : List Call) : Prop := ∀ c ∈ l, c = Call.upload

/-- Every yielded pair of the list carries no artifact. -/
def allNone (trace : List Yield) : Prop := ∀ p ∈ trace, p.1 = none

theorem isPrefixOf_append (l1 l2 : List Char) : l1.isPrefixOf (l1 ++ l2) = true := by
  induction l1 with
  | nil => simp [List.isPrefixOf]
  | cons c rest ih => simp [List.isPrefixOf, ih]

theorem strStartsWith_append (a b : String) : strStartsWith (a ++ b) a = true := by
  rw [strStartsWith, String.data_append]
  exact isPrefixOf_append a.data b.data

theorem onlyUploads_append_upload (l : List Call) (h : onlyUploads l) :
    onlyUploads (l ++ [Call.upload]) := by
  intro c hc
  cases List.mem_append.mp hc with
  | inl hc2 => exact h c hc2
  | inr hc2 => simpa using hc2

theorem allNone_append_none (t : List Yield) (m : String) (h : allNone t) :
    allNone (t ++ [((none : Option String), m)]) := by
  intro p hp
  cases List.mem_append.mp hp with
  | inl hp2 => exact h p hp2
  | inr hp2 => rw [List.mem_singleton.mp hp2]

theorem uploadOne_ok (env : Env) (st : UploadState) (nid param : String) (fp : Option String)
    (st2 : UploadState) (h : uploadOne env st nid param fp = .ok st2) :
    st2.trace = st.trace ∧ st2.calls = st.calls ++ [Call.upload] ∧ fp ≠ none := by
  cases fp with
  | none => rw [uploadOne] at h; cases h
  | some p =>
      rw [uploadOne] at h
      cases hu : env.upload st.k with
      | openFail m => rw [hu] at h; cases h
      | httpExn m => rw [hu] at h; cases h
      | httpError t => rw [hu] at h; cases h
      | ok name => rw [hu] at h; cases h; exact ⟨rfl, rfl, by simp⟩

theorem uploadOne_error (env : Env) (st : UploadState) (nid param : String) (fp : Option String)
    (st2 : UploadState) (h : uploadOne env st nid param fp = .error st2) :
    (∃ m, st2.trace = st.trace ++ [((none : Option String), m)] ∧ isUploadErrMsg m = true) ∧
    (st2.calls = st.calls ∨ st2.calls = st.calls ++ [Call.upload]) := by
  cases fp with
  | none =>
      rw [uploadOne] at h
      cases h
      refine ⟨⟨"Error: Missing file for " ++ param, rfl, ?_⟩, Or.inl rfl⟩
      rw [isUploadErrMsg]
      simp [strStartsWith_append]
  | some p =>
      rw [uploadOne] at h
      cases hu : env.upload st.k with
      | openFail m =>
          rw [hu] at h; cases h
          refine ⟨⟨"Upload error: " ++ m, rfl, ?_⟩, Or.inl rfl⟩
          rw [isUploadErrMsg]
          simp [strStartsWith_append]
      | httpExn m =>
          rw [hu] at h; cases h
          refine ⟨⟨"Upload error: " ++ m, rfl, ?_⟩, Or.inr rfl⟩
          rw [isUploadErrMsg]
          simp [strStartsWith_append]
      | httpError t =>
          rw [hu] at h; cases h
          refine ⟨⟨"Upload failed: " ++ t, rfl, ?_⟩, Or.inr rfl⟩
          rw [isUploadErrMsg]
          simp [strStartsWith_append]
      | ok name => rw [hu] at h; cases h

theorem uploadParams_ok (env : Env) (nid : String) (params : List (String × Option String))
    (st st2 : UploadState) (h : uploadParams env nid params st = .ok st2) :
    st2.trace = st.trace ∧ (onlyUploads st.calls → onlyUploads st2.calls) ∧
    (∀ param fp, (param, fp) ∈ params → fp ≠ none) := by
  induction params generalizing st with
  | nil =>
      rw [uploadParams] at h
      cases h
      exact ⟨rfl, fun hc => hc, fun _ _ hm => by cases hm⟩
  | cons e rest ih =>
      obtain ⟨param0, fp0⟩ := e
      rw [uploadParams] at h
      cases ho : uploadOne env st nid param0 fp0 with
      | error st3 => rw [ho] at h; cases h
      | ok st3 =>
          rw [ho] at h
          obtain ⟨ht, hc, hfp⟩ := uploadOne_ok env st nid param0 fp0 st3 ho
          obtain ⟨ht2, hc2, hfp2⟩ := ih st3 h
          refine ⟨ht2.trans ht, ?_, ?_⟩
          · intro hu
            refine hc2 ?_
            rw [hc]
            exact onlyUploads_append_upload st.calls hu
          · intro param fp hm
            cases hm with
            | head => exact hfp
            | tail _ hm2 => exact hfp2 param fp hm2

theorem uploadParams_error (env : Env) (nid : String) (params : List (String × Option String))
    (st st2 : UploadState) (h : uploadParams env nid params st = .error st2) :
    (∃ pre m, st2.trace = pre ++ [((none : Option String), m)] ∧ isUploadErrMsg m = true) ∧
    (allNone st.trace → allNone st2.trace) ∧
    (onlyUploads st.calls → onlyUploads st2.calls) := by
  induction params generalizing st with
  | nil => rw [uploadParams] at h; cases h
  | cons e rest ih =>
      obtain ⟨param0, fp0⟩ := e
      rw [uploadParams] at h
      cases ho : uploadOne env st nid param0 fp0 with
      | error st3 =>
          rw [ho] at h
          cases h
          obtain ⟨⟨m, htr, hmsg⟩, hcalls⟩ := uploadOne_error env st nid param0 fp0 st2 ho
          refine ⟨⟨st.trace, m, htr, hmsg⟩, ?_, ?_⟩
          · intro hall
            rw [htr]
            exact allNone_append_none st.trace m hall
          · intro hu
            cases hcalls with
            | inl hc => rw [hc]; exact hu
            | inr hc => rw [hc]; exact onlyUploads_append_upload st.calls hu
      | ok st3 =>
          rw [ho] at h
          obtain ⟨ht, hc, _⟩ := uploadOne_ok env st nid param0 fp0 st3 ho
          obtain ⟨hsh, han, hou⟩ := ih st3 h
          refine ⟨hsh, ?_, ?_⟩
          · intro hall
            refine han ?_
            rw [ht]
            exact hall
          · intro hu
            refine hou ?_
            rw [hc]
            exact onlyUploads_append_upload st.calls hu

theorem uploadAllFrom_ok (env : Env) (fm : FilesMap) (st st2 : UploadState)
    (h : uploadAllFrom env fm st = .ok st2) :
    st2.trace = st.trace ∧ (onlyUploads st.calls → onlyUploads st2.calls) ∧
    (∀ nid params, (nid, params) ∈ fm → ∀ param fp, (param, fp) ∈ params → fp ≠ none) := by
  induction fm generalizing st with
  | nil =>
      rw [uploadAllFrom] at h
      cases h
      exact ⟨rfl, fun hc => hc, fun _ _ hm => by cases hm⟩
  | cons e rest ih =>
      obtain ⟨nid0, params0⟩ := e
      rw [uploadAllFrom] at h
      cases ho : uploadParams env nid0 params0 st with
      | error st3 => rw [ho] at h; cases h
      | ok st3 =>
          rw [ho] at h
          obtain ⟨ht, hc, hfp⟩ := uploadParams_ok env nid0 params0 st st3 ho
          obtain ⟨ht2, hc2, hfp2⟩ := ih st3 h
          refine ⟨ht2.trans ht, fun hu => hc2 (hc hu), ?_⟩
          intro nid params hm
          cases hm with
          | head => exact hfp
          | tail _ hm2 => exact hfp2 nid params hm2

theorem uploadAllFrom_error (env : Env) (fm : FilesMap) (st st2 : UploadState)
    (h : uploadAllFrom env fm st = .error st2) :
    (∃ pre m, st2.trace = pre ++ [((none : Option String), m)] ∧ isUploadErrMsg m = true) ∧
    (allNone st.trace → allNone st2.trace) ∧
    (onlyUploads st.calls → onlyUploads st2.calls) := by
  induction fm generalizing st with
  | nil => rw [uploadAllFrom] at h; cases h
  | cons e rest ih =>
      obtain ⟨nid0, params0⟩ := e
      rw [uploadAllFrom] at h
      cases ho : uploadParams env nid0 params0 st with
      | error st3 =>
          rw [ho] at h
          cases h
          exact uploadParams_error env nid0 params0 st st2 ho
      | ok st3 =>
          rw [ho] at h
          obtain ⟨ht, hc, _⟩ := uploadParams_ok env nid0 params0 st st3 ho
          obtain ⟨hsh, han, hou⟩ := ih st3 h
          refine ⟨hsh, ?_, fun hu => hou (hc hu)⟩
          intro hall
          refine han ?_
          rw [ht]
          exact hall

theorem uploadAll_ok (env : Env) (fm : FilesMap) (st : UploadState)
    (h : uploadAll env fm = .ok st) :
    st.trace = [] ∧ onlyUploads st.calls ∧
    (∀ nid params, (nid, params) ∈ fm → ∀ param fp, (param, fp) ∈ params → fp ≠ none) := by
  obtain ⟨ht, hc, hfp⟩ := uploadAllFrom_ok env fm ⟨[], [], 0, []⟩ st h
  exact ⟨ht, hc (fun c hc2 => by cases hc2), hfp⟩

theorem uploadAll_error (env : Env) (fm : FilesMap) (st : UploadState)
    (h : uploadAll env fm = .error st) :
    (∃ pre m, st.trace = pre ++ [((none : Option String), m)] ∧ isUploadErrMsg m = true) ∧
    allNone st.trace ∧ onlyUploads st.calls := by
  obtain ⟨hsh, han, hou⟩ := uploadAllFrom_error env fm ⟨[], [], 0, []⟩ st h
  exact ⟨hsh, han (fun p hp => by cases hp), hou (fun c hc => by cases hc)⟩

theorem uploadOne_ok_k (env : Env) (st : UploadState) (nid param : String) (fp : Option String)
    (st2 : UploadState) (h : uploadOne env st nid param fp = .ok st2) :
    st2.k = st.k + 1 ∧ isOpenFail (env.upload st.k) = false := by
  cases fp with
  | none => rw [uploadOne] at h; cases h
  | some p =>
      rw [uploadOne] at h
      cases hu : env.upload st.k with
      | openFail m => rw [hu] at h; cases h
      | httpExn m => rw [hu] at h; cases h
      | httpError t => rw [hu] at h; cases h
      | ok name => rw [hu] at h; cases h; exact ⟨rfl, rfl⟩

theorem uploadParams_ok_k (env : Env) (nid : String) (params : List (String × Option String))
    (st st2 : UploadState) (h : uploadParams env nid params st = .ok st2) :
    st2.k = st.k + params.length ∧
    ∀ j, st.k ≤ j → j < st2.k → isOpenFail (env.upload j) = false := by
  induction params generalizing st with
  | nil =>
      rw [uploadParams] at h
      cases h
      exact ⟨rfl, fun j h1 h2 => absurd h2 (by omega)⟩
  | cons e rest ih =>
      obtain ⟨param0, fp0⟩ := e
      rw [uploadParams] at h
      cases ho : uploadOne env st nid param0 fp0 with
      | error st3 => rw [ho] at h; cases h
      | ok st3 =>
          rw [ho] at h
          obtain ⟨hk1, hof⟩ := uploadOne_ok_k env st nid param0 fp0 st3 ho
          obtain ⟨hk2, hall⟩ := ih st3 h
          constructor
          · rw [List.length_cons]; omega
          · intro j h1 h2
            by_cases hj : j = st.k
            · rw [hj]; exact hof
            · exact hall j (by omega) h2

theorem uploadAllFrom_ok_k (env : Env) (fm : FilesMap) (st st2 : UploadState)
    (h : uploadAllFrom env fm st = .ok st2) :
    st2.k = st.k + numFiles fm ∧
    ∀ j, st.k ≤ j → j < st2.k → isOpenFail (env.upload j) = false := by
  induction fm generalizing st with
  | nil =>
      rw [uploadAllFrom] at h
      cases h
      exact ⟨by simp [numFiles], fun j h1 h2 => absurd h2 (by omega)⟩
  | cons e rest ih =>
      obtain ⟨nid0, params0⟩ := e
      rw [uploadAllFrom] at h
      cases ho : uploadParams env nid0 params0 st with
      | error st3 => rw [ho] at h; cases h
      | ok st3 =>
          rw [ho] at h
          obtain ⟨hk1, hall1⟩ := uploadParams_ok_k env nid0 params0 st st3 ho
          obtain ⟨hk2, hall2⟩ := ih st3 h
          constructor
          · simp only [numFiles]; omega
          · intro j h1 h2
            by_cases hj : j < st3.k
            · exact hall1 j h1 hj
            · exact hall2 j (by omega) h2

theorem uploadAll_ok_k (env : Env) (fm : FilesMap) (st : UploadState)
    (h : uploadAll env fm = .ok st) :
    ∀ j, j < numFiles fm → isOpenFail (env.upload j) = false := by
  obtain ⟨hk, hall⟩ := uploadAllFrom_ok_k env fm ⟨[], [], 0, []⟩ st h
  intro j hj
  exact hall j (Nat.zero_le j) (by omega)



/-! Helper lemmas about the polling loop. -/

/-- The poll tick outcomes on which the source keeps polling: a raised
request, a non-200 answer, or a body that lacks the job id. -/
def notComplete (pid : J) (h : HistResult) : Bool :=
  match h with
  | .exn _ => true
  | .notOk => true
  | .ok body => !(pidIn pid body)

theorem pollPhase_pending (env : Env) (pid : J) (fuel tick : Nat)
    (h : ∀ i, i < fuel → notComplete pid (env.history (tick + i)) = true) :
    pollPhase env pid fuel tick =
      ⟨(List.range fuel).map
        (fun i => ((none : Option String),
          "Processing... (" ++ toString (env.elapsed (tick + i)) ++ "s)")),
       List.replicate fuel Call.history, .fuelOut⟩ := by
  induction fuel generalizing tick with
  | zero => simp [pollPhase]
  | succ fuel ih =>
      have h0 := h 0 (Nat.succ_pos fuel)
      rw [Nat.add_zero] at h0
      have hrest : ∀ i, i < fuel → notComplete pid (env.history (tick + 1 + i)) = true := by
        intro i hi
        have h2 := h (i + 1) (Nat.succ_lt_succ hi)
        rw [show tick + (i + 1) = tick + 1 + i by omega] at h2
        exact h2
      have hr := ih (tick + 1) hrest
      have hshift : ∀ i : Nat, tick + 1 + i = tick + (i + 1) := fun i => by omega
      have hrange :
          (List.range (fuel + 1)).map
            (fun i => ((none : Option String),
              "Processing... (" ++ toString (env.elapsed (tick + i)) ++ "s)")) =
          ((none : Option String),
            "Processing... (" ++ toString (env.elapsed tick) ++ "s)") ::
          (List.range fuel).map
            (fun i => ((none : Option String),
              "Processing... (" ++ toString (env.elapsed (tick + 1 + i)) ++ "s)")) := by
        rw [List.range_succ_eq_map, List.map_cons, List.map_map]
        refine congrArg₂ _ (by rw [Nat.add_zero]) ?_
        refine List.map_congr_left ?_
        intro i _
        simp only [Function.comp]
        rw [hshift i]
      cases hh : env.history tick with
      | exn m =>
          simp only [pollPhase, hh, hr]
          rw [hrange, List.replicate_succ]
      | notOk =>
          simp only [pollPhase, hh, hr]
          rw [hrange, List.replicate_succ]
      | ok body =>
          rw [hh] at h0
          have hp : pidIn pid body = false := by simpa [notComplete] using h0
          simp only [pollPhase, hh, hp, Bool.false_eq_true, if_false, hr]
          rw [hrange, List.replicate_succ]

/-- Every pair of the list except possibly the last carries no
artifact. -/
def noEarlyArtifact (trace : List Yield) : Prop := ∀ p ∈ trace.dropLast, p.1 = none

theorem noEarly_of_allNone (t : List Yield) (h : allNone t) : noEarlyArtifact t :=
  fun p hp => h p ((List.dropLast_sublist t).subset hp)

theorem noEarly_cons (p : Yield) (t : List Yield) (hp : p.1 = none)
    (ht : noEarlyArtifact t) : noEarlyArtifact (p :: t) := by
  intro q hq
  cases t with
  | nil => simp [List.dropLast] at hq
  | cons a rest =>
      rw [List.dropLast_cons₂] at hq
      cases hq with
      | head => exact hp
      | tail _ hq2 => exact ht q hq2

theorem noEarly_append (t1 t2 : List Yield) (h1 : allNone t1) (h2 : noEarlyArtifact t2) :
    noEarlyArtifact (t1 ++ t2) := by
  induction t1 with
  | nil => simpa using h2
  | cons p rest ih =>
      rw [List.cons_append]
      refine noEarly_cons p (rest ++ t2) (h1 p (List.mem_cons_self p rest)) ?_
      exact ih (fun q hq => h1 q (List.mem_cons_of_mem p hq))

theorem pollPhase_noEarly (env : Env) (pid : J) (fuel tick : Nat) :
    noEarlyArtifact (pollPhase env pid fuel tick).trace := by
  induction fuel generalizing tick with
  | zero => intro p hp; simp [pollPhase] at hp
  | succ fuel ih =>
      cases hh : env.history tick with
      | exn m =>
          simp only [pollPhase, hh]
          exact noEarly_cons _ _ rfl (ih (tick + 1))
      | notOk =>
          simp only [pollPhase, hh]
          exact noEarly_cons _ _ rfl (ih (tick + 1))
      | ok body =>
          by_cases hp : pidIn pid body
          · cases hsel : selectArtifact (outputsFor pid body) with
            | some item =>
                cases hv : env.view tick with
                | ok =>
                    simp only [pollPhase, hh, hp, if_true, hsel, hv]
                    intro q hq
                    simp [List.dropLast] at hq
                    rcases hq with rfl | rfl <;> rfl
                | exn m =>
                    simp only [pollPhase, hh, hp, if_true, hsel, hv]
                    exact noEarly_cons _ _ rfl (noEarly_cons _ _ rfl (ih (tick + 1)))
            | none =>
                simp only [pollPhase, hh, hp, if_true, hsel]
                intro q hq
                simp [List.dropLast] at hq
                rcases hq with rfl | rfl <;> rfl
          · simp only [pollPhase, hh, hp, Bool.false_eq_true, if_false]
            exact noEarly_cons _ _ rfl (ih (tick + 1))



/-- C4: the runner never writes the template store: the store a job
returns is the store it was given, and the per-job graph is built from
a deep copy that reproduces the registry entry exactly, so all patching
and seed randomization act on an isolated copy. -/
theorem C4_copy_isolation :
    ∀ (store : Store) (name : String) (im : InputsMap) (fm : FilesMap) (env : Env) (fuel : Nat),
      (runJob store name im fm env fuel).store = store ∧
      (∀ t, alookup store name = some t → deep_copy t = t) :=
  fun _ _ _ _ _ _ => ⟨rfl, fun t _ => deep_copy_eq t⟩

/-- Witness for C4 on a concrete store and job. -/
theorem C4_copy_isolation_witness :
    (runJob exStore "t" [] [] envHappy 1).store = exStore ∧ deep_copy (J.obj []) = J.obj [] :=
  ⟨(C4_copy_isolation exStore "t" [] [] envHappy 1).1,
   (C4_copy_isolation exStore "t" [] [] envHappy 1).2 (J.obj []) rfl⟩

/-- C6: a job whose files_map references a missing local file never
reaches the submission endpoint, in either form the source
distinguishes: an entry whose path is Python None (checked at line 42),
or a path that is absent on disk, so that open() raises before any HTTP
call on the upload attempt that reaches it (modelled as an openFail
result at some attempt index of the job).  Either way the upload phase
ends the run with a terminal upload/missing-file status and no prompt
call is recorded. -/
theorem C6_missing_file_blocks_submit :
    ∀ (store : Store) (name : String) (im : InputsMap) (fm : FilesMap) (env : Env) (fuel : Nat)
      (wfJ : J),
      alookup store name = some wfJ →
      ((∃ nid params param, (nid, params) ∈ fm ∧ (param, (none : Option String)) ∈ params) ∨
       (∃ k, k < numFiles fm ∧ isOpenFail (env.upload k) = true)) →
      ∃ st, uploadAll env fm = .error st ∧
        runJob store name im fm env fuel =
          ⟨[((none : Option String), "Uploading files...")] ++ st.trace, st.calls, .done, store⟩ ∧
        Call.prompt ∉ st.calls ∧
        (∃ pre m, st.trace = pre ++ [((none : Option String), m)] ∧ isUploadErrMsg m = true) := by
  intro store name im fm env fuel wfJ hname hex
  cases hu : uploadAll env fm with
  | ok st =>
      cases hex with
      | inl hnone =>
          obtain ⟨nid, params, param, hm1, hm2⟩ := hnone
          obtain ⟨_, _, hfp⟩ := uploadAll_ok env fm st hu
          exact absurd rfl (hfp nid params hm1 param none hm2)
      | inr habsent =>
          obtain ⟨k, hk, hof⟩ := habsent
          have := uploadAll_ok_k env fm st hu k hk
          rw [hof] at this
          exact absurd this (by simp)
  | error st =>
      obtain ⟨hsh, _, hou⟩ := uploadAll_error env fm st hu
      refine ⟨st, rfl, ?_, ?_, hsh⟩
      · simp only [runJob, runJobCore, hname, hu]
      · intro hmem
        exact Call.noConfusion (hou Call.prompt hmem)

/-- Witness for C6: a files_map entry whose local path is absent on
disk, so the first upload attempt fails at open() before any HTTP
call. -/
theorem C6_missing_file_blocks_submit_witness :
    ∃ st, uploadAll envOpenFail exAbsentFiles = .error st ∧
      runJob exStore "t" [] exAbsentFiles envOpenFail 1 =
        ⟨[((none : Option String), "Uploading files...")] ++ st.trace, st.calls, .done, exStore⟩ ∧
      Call.prompt ∉ st.calls ∧
      (∃ pre m, st.trace = pre ++ [((none : Option String), m)] ∧ isUploadErrMsg m = true) :=
  C6_missing_file_blocks_submit exStore "t" [] exAbsentFiles envOpenFail 1 (J.obj []) rfl
    (Or.inr ⟨0, by decide, rfl⟩)

/-- C7: a submission that the engine rejects with a non-success status
ends the run with a terminal submission-error pair and the polling
state is never entered: no history or view call is ever made. -/
theorem C7_submission_error_stops :
    ∀ (store : Store) (name : String) (im : InputsMap) (fm : FilesMap) (env : Env) (fuel : Nat)
      (wfJ wf2 : J) (st : UploadState) (text : String),
      alookup store name = some wfJ →
      uploadAll env fm = .ok st →
      configure (deep_copy wfJ) im st.names env.rand = .ok wf2 →
      env.prompt = .httpError text →
      runJob store name im fm env fuel =
        ⟨[((none : Option String), "Uploading files..."), (none, "Configuring workflow..."),
          (none, "Sending job..."), (none, "Error submitting: " ++ text)],
         st.calls ++ [Call.prompt], .done, store⟩ ∧
      Call.history ∉ st.calls ++ [Call.prompt] ∧
      Call.view ∉ st.calls ++ [Call.prompt] := by
  intro store name im fm env fuel wfJ wf2 st text hname hu hc hpr
  obtain ⟨hst, hou, _⟩ := uploadAll_ok env fm st hu
  refine ⟨?_, ?_, ?_⟩
  · simp only [runJob, runJobCore, hname, hu, hc, hpr, hst]
    simp
  · intro hmem
    cases List.mem_append.mp hmem with
    | inl h1 => exact Call.noConfusion (hou Call.history h1)
    | inr h1 => exact Call.noConfusion (List.mem_singleton.mp h1)
  · intro hmem
    cases List.mem_append.mp hmem with
    | inl h1 => exact Call.noConfusion (hou Call.view h1)
    | inr h1 => exact Call.noConfusion (List.mem_singleton.mp h1)

/-- Witness for C7: an engine answering HTTP 500 on /prompt. -/
theorem C7_submission_error_stops_witness :
    runJob exStore "t" [] [] envReject 1 =
      ⟨[((none : Option String), "Uploading files..."), (none, "Configuring workflow..."),
        (none, "Sending job..."), (none, "Error submitting: " ++ "Internal Server Error")],
       ([] : List Call) ++ [Call.prompt], .done, exStore⟩ ∧
    Call.history ∉ ([] : List Call) ++ [Call.prompt] ∧
    Call.view ∉ ([] : List Call) ++ [Call.prompt] :=
  C7_submission_error_stops exStore "t" [] [] envReject 1 (J.obj []) (J.obj [])
    ⟨[], [], 0, []⟩ "Internal Server Error" rfl rfl rfl rfl

/-- C8: while the history answer stays incomplete (request failure,
non-200 status or a body without the job id), the polling loop never
terminates the progress sequence: for every fuel bound it yields
exactly one elapsed-time update per tick, makes one history call per
tick, runs no retry bound, and ends only by running out of fuel. -/
theorem C8_polling_never_terminates :
    ∀ (env : Env) (pid : J) (fuel tick : Nat),
      (∀ i, i < fuel → notComplete pid (env.history (tick + i)) = true) →
      pollPhase env pid fuel tick =
        ⟨(List.range fuel).map
          (fun i => ((none : Option String),
            "Processing... (" ++ toString (env.elapsed (tick + i)) ++ "s)")),
         List.replicate fuel Call.history, .fuelOut⟩ :=
  fun env pid fuel tick h => pollPhase_pending env pid fuel tick h

/-- Witness for C8: an engine whose history never lists the job. -/
theorem C8_polling_never_terminates_witness :
    pollPhase envNeverDone (J.str "pid") 2 0 =
      ⟨(List.range 2).map
        (fun i => ((none : Option String),
          "Processing... (" ++ toString (envNeverDone.elapsed (0 + i)) ++ "s)")),
       List.replicate 2 Call.history, .fuelOut⟩ :=
  C8_polling_never_terminates envNeverDone (J.str "pid") 2 0 (fun _ _ => rfl)

/-- C10: in every progress sequence of the runner, every pair except
possibly the last carries no artifact: a local file path can occur only
as the final element of the sequence. -/
theorem C10_artifact_is_final :
    ∀ (store : Store) (name : String) (im : InputsMap) (fm : FilesMap) (env : Env) (fuel : Nat),
      ∀ p ∈ (runJob store name im fm env fuel).trace.dropLast, p.1 = none := by
  intro store name im fm env fuel
  have hne : noEarlyArtifact (runJobCore store name im fm env fuel).1 := by
    cases hname : alookup store name with
    | none =>
        simp only [runJobCore, hname]
        intro p hp
        simp [List.dropLast] at hp
    | some wfJ =>
        cases hu : uploadAll env fm with
        | error st =>
            simp only [runJobCore, hname, hu]
            obtain ⟨_, han, _⟩ := uploadAll_error env fm st hu
            refine noEarly_of_allNone _ ?_
            intro p hp
            cases List.mem_append.mp hp with
            | inl h1 => rw [List.mem_singleton.mp h1]
            | inr h1 => exact han p h1
        | ok st =>
            obtain ⟨hst, _, _⟩ := uploadAll_ok env fm st hu
            cases hc : configure (deep_copy wfJ) im st.names env.rand with
            | error msg =>
                simp only [runJobCore, hname, hu, hc, hst]
                refine noEarly_of_allNone _ ?_
                intro p hp
                simp at hp
                rcases hp with rfl | rfl | rfl <;> rfl
            | ok wf2 =>
                cases hpr : env.prompt with
                | httpError text =>
                    simp only [runJobCore, hname, hu, hc, hst, hpr]
                    refine noEarly_of_allNone _ ?_
                    intro p hp
                    simp at hp
                    rcases hp with rfl | rfl | rfl | rfl <;> rfl
                | exn m =>
                    simp only [runJobCore, hname, hu, hc, hst, hpr]
                    refine noEarly_of_allNone _ ?_
                    intro p hp
                    simp at hp
                    rcases hp with rfl | rfl | rfl | rfl <;> rfl
                | ok pid =>
                    simp only [runJobCore, hname, hu, hc, hst, hpr, List.nil_append,
                      List.append_nil, List.cons_append, List.singleton_append]
                    exact noEarly_cons _ _ rfl (noEarly_cons _ _ rfl
                      (noEarly_cons _ _ rfl (pollPhase_noEarly env pid fuel 0)))
  exact fun p hp => hne p hp

/-- Witness for C10 on a successful concrete run. -/
theorem C10_artifact_is_final_witness :
    (((none : Option String), "Uploading files...") : Yield).1 = none :=
  C10_artifact_is_final exStore "t" [] [] envHappy 1
    ((none : Option String), "Uploading files...") (by decide)



/-- C5 (amended): the runner is a total function whose faults are
yielded, not raised.  An unknown template, a missing input file or
upload failure, a configuration exception, a submission rejection, a
connection failure and a completed job without output each end the run
with a terminal (none, status-message) pair, and every run yields at
least one pair.  A download failure however is not terminal: the
polling loop swallows it and keeps polling, retrying the download on
the next tick. -/
theorem C5_error_surfacing :
    ∀ (store : Store) (name : String) (im : InputsMap) (fm : FilesMap) (env : Env) (fuel : Nat),
      (alookup store name = none →
        runJob store name im fm env fuel =
          ⟨[((none : Option String),
            "Error: Workflow \x27" ++ name ++ "\x27 not found. Check \x27workflows\x27 folder.")],
           [], .done, store⟩) ∧
      (∀ wfJ st, alookup store name = some wfJ → uploadAll env fm = .error st →
        runJob store name im fm env fuel =
          ⟨[((none : Option String), "Uploading files...")] ++ st.trace, st.calls, .done, store⟩ ∧
        ∃ pre m, st.trace = pre ++ [((none : Option String), m)] ∧ isUploadErrMsg m = true) ∧
      (∀ wfJ st msg, alookup store name = some wfJ → uploadAll env fm = .ok st →
        configure (deep_copy wfJ) im st.names env.rand = .error msg →
        runJob store name im fm env fuel =
          ⟨[((none : Option String), "Uploading files..."), (none, "Configuring workflow..."),
            (none, "Error: " ++ msg)], st.calls, .done, store⟩) ∧
      (∀ wfJ st wf2 text, alookup store name = some wfJ → uploadAll env fm = .ok st →
        configure (deep_copy wfJ) im st.names env.rand = .ok wf2 →
        env.prompt = .httpError text →
        runJob store name im fm env fuel =
          ⟨[((none : Option String), "Uploading files..."), (none, "Configuring workflow..."),
            (none, "Sending job..."), (none, "Error submitting: " ++ text)],
           st.calls ++ [Call.prompt], .done, store⟩) ∧
      (∀ wfJ st wf2 m, alookup store name = some wfJ → uploadAll env fm = .ok st →
        configure (deep_copy wfJ) im st.names env.rand = .ok wf2 →
        env.prompt = .exn m →
        runJob store name im fm env fuel =
          ⟨[((none : Option String), "Uploading files..."), (none, "Configuring workflow..."),
            (none, "Sending job..."), (none, "Connection error: " ++ m)],
           st.calls ++ [Call.prompt], .done, store⟩) ∧
      (∀ pid body tick fuel2, env.history tick = .ok body → pidIn pid body = true →
        selectArtifact (outputsFor pid body) = none →
        pollPhase env pid (fuel2 + 1) tick =
          ⟨[((none : Option String), "Processing... (" ++ toString (env.elapsed tick) ++ "s)"),
            (none, "Job finished! Downloading..."), (none, "Finished, but no output found.")],
           [Call.history], .done⟩) ∧
      (∀ pid body item tick fuel2 m, env.history tick = .ok body → pidIn pid body = true →
        selectArtifact (outputsFor pid body) = some item → env.view tick = .exn m →
        pollPhase env pid (fuel2 + 1) tick =
          ⟨((none : Option String), "Processing... (" ++ toString (env.elapsed tick) ++ "s)") ::
            ((none : Option String), "Job finished! Downloading...") ::
            (pollPhase env pid fuel2 (tick + 1)).trace,
           Call.history :: Call.view :: (pollPhase env pid fuel2 (tick + 1)).calls,
           (pollPhase env pid fuel2 (tick + 1)).outcome⟩) ∧
      (runJob store name im fm env fuel).trace ≠ [] := by
  intro store name im fm env fuel
  refine ⟨?_, ?_, ?_, ?_, ?_, ?_, ?_, ?_⟩
  · intro h
    simp only [runJob, runJobCore, h]
  · intro wfJ st hname hu
    refine ⟨?_, (uploadAll_error env fm st hu).1⟩
    simp only [runJob, runJobCore, hname, hu]
  · intro wfJ st msg hname hu hc
    obtain ⟨hst, _, _⟩ := uploadAll_ok env fm st hu
    simp only [runJob, runJobCore, hname, hu, hc, hst]
    simp
  · intro wfJ st wf2 text hname hu hc hpr
    obtain ⟨hst, _, _⟩ := uploadAll_ok env fm st hu
    simp only [runJob, runJobCore, hname, hu, hc, hpr, hst]
    simp
  · intro wfJ st wf2 m hname hu hc hpr
    obtain ⟨hst, _, _⟩ := uploadAll_ok env fm st hu
    simp only [runJob, runJobCore, hname, hu, hc, hpr, hst]
    simp
  · intro pid body tick fuel2 hh hp hsel
    simp only [pollPhase, hh, hp, if_true, hsel]
  · intro pid body item tick fuel2 m hh hp hsel hv
    simp only [pollPhase, hh, hp, if_true, hsel, hv]
  · cases hname : alookup store name with
    | none =>
        simp only [runJob, runJobCore, hname]
        exact List.cons_ne_nil _ _
    | some wfJ =>
        cases hu : uploadAll env fm with
        | error st =>
            simp only [runJob, runJobCore, hname, hu]
            exact List.cons_ne_nil _ _
        | ok st =>
            cases hc : configure (deep_copy wfJ) im st.names env.rand with
            | error msg =>
                simp only [runJob, runJobCore, hname, hu, hc]
                exact List.cons_ne_nil _ _
            | ok wf2 =>
                cases hpr : env.prompt <;>
                  simp only [runJob, runJobCore, hname, hu, hc, hpr] <;>
                  exact List.cons_ne_nil _ _

/-- C5 counterexample: with an always-complete history and a download
that keeps failing, the run yields the downloading message, swallows
the failure, polls again and never surfaces a terminal download-error
pair: after two ticks the run is still pending, refuting the claim that
a download failure is surfaced as a terminal (none, message) pair. -/
theorem C5_error_surfacing_counterexample :
    runJob exStore "t" [] [] envDownFail 2 =
      ⟨[((none : Option String), "Uploading files..."), (none, "Configuring workflow..."),
        (none, "Sending job..."), (none, "Processing... (0s)"),
        (none, "Job finished! Downloading..."), (none, "Processing... (1s)"),
        (none, "Job finished! Downloading...")],
       [Call.prompt, Call.history, Call.view, Call.history, Call.view],
       Outcome.fuelOut, exStore⟩ ∧
    (runJob exStore "t" [] [] envDownFail 2).outcome ≠ Outcome.done :=
  ⟨rfl, by decide⟩

/-- Witness for C5: the unknown-template conjunct on a concrete job. -/
theorem C5_error_surfacing_witness :
    runJob ([] : Store) "x" [] [] envHappy 0 =
      ⟨[((none : Option String),
        "Error: Workflow \x27" ++ "x" ++ "\x27 not found. Check \x27workflows\x27 folder.")],
       [], .done, ([] : Store)⟩ :=
  (C5_error_surfacing [] "x" [] [] envHappy 0).1 rfl

end GradioWan
